import Mathlib

/-!
Verification of the "im-starving" picker application core logic.

The source is a single React component.  We shallow-embed its pure core:
the place-key derivation, the dataset-load normalization, the visited /
seen set bookkeeping, the random-draw state step, and the nearby list
computation.  JavaScript numbers that survive validation are modelled as
rationals; the result of coercing an arbitrary present JS value with
`Number(...)` is modelled by `JsNum` (a rational, or NaN).  JS truthiness
of optional strings is explicit: a field holding the empty string is
falsy, which matters for `placeKey`.  `Math.random()`-based indexing
`pool[Math.floor(Math.random() * pool.length)]` is modelled by an
arbitrary natural `c` reduced modulo the pool length, which ranges over
exactly the indices the source can produce.  The floating-point haversine
distance is abstracted as an arbitrary rational-valued distance function
parameter; every claim about the nearby list is structural and holds for
every such function, in particular for the source's haversine.
-/

/-- Result of coercing a present (non-nullish) JS value with `Number(...)`:
either a finite numeric value or NaN. -/
inductive JsNum where
  | num (q : ℚ) : JsNum
  | nan : JsNum
deriving DecidableEq

/-- Embedded `location` object of a record.  Each field is `none` when the
property is absent or nullish (so that the source's `??` chains skip it),
and `some v` when present with coercion result `v`. -/
structure Location where
  lat : Option JsNum := none
  latitude : Option JsNum := none
  lng : Option JsNum := none
  lon : Option JsNum := none
  longitude : Option JsNum := none
deriving DecidableEq

/-- Place record (all fields optional, as in the source's `Place` type).
String fields keep `some ""` distinct from `none` so that JS truthiness is
representable.  `scrapedAt` is `some (some t)` for a truthy raw value whose
`new Date(...)` parses to time `t`, `some none` for a truthy unparseable
value, `none` for an absent or falsy one. -/
structure Place where
  title : Option String := none
  street : Option String := none
  city : Option String := none
  state : Option String := none
  countryCode : Option String := none
  url : Option String := none
  location : Option Location := none
  scrapedAt : Option (Option ℚ) := none
deriving DecidableEq

/-- Coordinate pair, as in the source's `Coordinates` type. -/
structure Coordinates where
  lat : ℚ
  lng : ℚ
deriving DecidableEq

/-- Fallback part of `placeKey`: the source's
`place.title ? title + "::" + (street ?? "") : undefined` followed by
`?? "index-" + index`. -/
def placeKeyTitle (place : Place) (index : ℕ) : String :=
  match place.title with
  | some t => if t ≠ "" then t ++ "::" ++ place.street.getD "" else "index-" ++ toString index
  | none => "index-" ++ toString index

/-- Source `placeKey`: `const byUrl = place.url; if (byUrl) return byUrl;`
(truthiness: a present empty string falls through), then the title/street
composite, then the positional fallback. -/
def placeKey (place : Place) (index : ℕ) : String :=
  match place.url with
  | some u => if u ≠ "" then u else placeKeyTitle place index
  | none => placeKeyTitle place index

lemma str_append_ne_empty (s t : String) (hs : s ≠ "") : (s ++ t) ≠ "" := by
  intro h
  apply hs
  apply String.ext
  have hd := congrArg String.data h
  rw [String.data_append] at hd
  exact (List.append_eq_nil.mp hd).1

lemma placeKeyTitle_ne_empty (place : Place) (index : ℕ) :
    placeKeyTitle place index ≠ "" := by
  have hidx : ("index-" ++ toString index) ≠ "" :=
    str_append_ne_empty _ _ (by decide)
  unfold placeKeyTitle
  rcases ht : place.title with _ | t
  · exact hidx
  · show (if t ≠ "" then t ++ "::" ++ place.street.getD ""
        else "index-" ++ toString index) ≠ ""
    by_cases h : t ≠ ""
    · rw [if_pos h]
      exact str_append_ne_empty _ _ (str_append_ne_empty _ _ h)
    · rw [if_neg h]
      exact hidx

lemma placeKey_ne_empty (place : Place) (index : ℕ) :
    placeKey place index ≠ "" := by
  unfold placeKey
  rcases hu : place.url with _ | u
  · exact placeKeyTitle_ne_empty place index
  · show (if u ≠ "" then u else placeKeyTitle place index) ≠ ""
    by_cases h : u ≠ ""
    · rw [if_pos h]; exact h
    · rw [if_neg h]; exact placeKeyTitle_ne_empty place index

/-- C7: `placeKey` is a pure total function returning a non-empty string;
it returns the url when that is present and non-empty, else the
title/street composite when the title is present and non-empty, else the
positional fallback; and two records with the same non-empty url get the
same key regardless of every other field and of the positions. -/
theorem placeKey_spec (place : Place) (index : ℕ) :
    placeKey place index ≠ ""
    ∧ (∀ u, place.url = some u → u ≠ "" → placeKey place index = u)
    ∧ ((∀ u, place.url = some u → u = "") →
        ∀ t, place.title = some t → t ≠ "" →
          placeKey place index = t ++ "::" ++ place.street.getD "")
    ∧ ((∀ u, place.url = some u → u = "") →
        (∀ t, place.title = some t → t = "") →
        placeKey place index = "index-" ++ toString index)
    ∧ (∀ (other : Place) (j : ℕ) (u : String),
        place.url = some u → u ≠ "" → other.url = some u →
        placeKey place index = placeKey other j) := by
  refine ⟨placeKey_ne_empty place index, ?_, ?_, ?_, ?_⟩
  · intro u hu hne
    simp [placeKey, hu, hne]
  · intro hurl t ht htne
    have hfall : placeKey place index = placeKeyTitle place index := by
      unfold placeKey
      match hu : place.url with
      | none => rfl
      | some u => simp [hurl u hu]
    rw [hfall]
    simp [placeKeyTitle, ht, htne]
  · intro hurl htitle
    have hfall : placeKey place index = placeKeyTitle place index := by
      unfold placeKey
      match hu : place.url with
      | none => rfl
      | some u => simp [hurl u hu]
    rw [hfall]
    unfold placeKeyTitle
    match ht : place.title with
    | none => rfl
    | some t => simp [htitle t ht]
  · intro other j u hu hne hou
    simp [placeKey, hu, hou, hne]

/-- Witness for C7 at concrete records: a record with a url keeps the url
as its key even at a different position and with different other fields. -/
theorem placeKey_spec_witness :
    ({ url := some "https://maps.example/a", title := some "A" : Place }.url
        = some "https://maps.example/a")
    ∧ "https://maps.example/a" ≠ ""
    ∧ placeKey { url := some "https://maps.example/a", title := some "A" } 0
        = "https://maps.example/a"
    ∧ placeKey { url := some "https://maps.example/a", title := some "A" } 0
        = placeKey { url := some "https://maps.example/a", street := some "s" } 7 := by
  refine ⟨rfl, by decide, ?_, ?_⟩
  · exact (placeKey_spec { url := some "https://maps.example/a", title := some "A" } 0).2.1
      "https://maps.example/a" rfl (by decide)
  · exact (placeKey_spec { url := some "https://maps.example/a", title := some "A" } 0).2.2.2.2
      { url := some "https://maps.example/a", street := some "s" } 7
      "https://maps.example/a" rfl (by decide) rfl

/-- Focus source of the current pick, as in the source's
`selectionSource` state (`"hero" | "list" | null` via `Option`). -/
inductive SelSource where
  | hero : SelSource
  | list : SelSource
deriving DecidableEq

/-- The source's `datasetInfo` state value:
`{ total: number; lastUpdated?: Date }`. -/
structure DatasetInfo where
  total : ℕ
  lastUpdated : Option ℚ
deriving DecidableEq

/-- The component state relevant to the core logic: one field per React
`useState` hook that the specified operations read or write (purely
presentational flags such as `picking` and the geolocation status fields
are omitted; no claim mentions them). -/
structure AppState where
  loading : Bool
  data : List Place
  seen : Finset ℕ
  currentIdx : Option ℕ
  selectionSource : Option SelSource
  visited : Finset String
  geoCache : String → Option Coordinates
  userLocation : Option Coordinates
  statusMessage : Option String
  loadError : Option String
  datasetInfo : Option DatasetInfo

/-- The `available` list of `handlePickRandom`: the loop
`for (let i = 0; i < data.length; i++)` pushing every index whose record
exists (`if (!place) continue`) and whose key is not visited. -/
def availableIndices (data : List Place) (visited : Finset String) : List ℕ :=
  (List.range data.length).filter (fun i =>
    match data[i]? with
    | some p => decide (placeKey p i ∉ visited)
    | none => false)

/-- Eligible pool as a finite set (the source's `availableSet`). -/
def eligibleSet (s : AppState) : Finset ℕ :=
  (availableIndices s.data s.visited).toFinset

/-- The source's `localSeen` before the exhaustion check:
`seen.forEach((idx) => { if (availableSet.has(idx)) localSeen.add(idx) })`. -/
def roundSeenPre (s : AppState) : Finset ℕ :=
  s.seen ∩ eligibleSet s

/-- The source's `localSeen` after the exhaustion check:
`if (localSeen.size >= available.length) localSeen = new Set()`. -/
def roundSeen (s : AppState) : Finset ℕ :=
  if (availableIndices s.data s.visited).length ≤ (roundSeenPre s).card then ∅
  else roundSeenPre s

/-- The source's `pool`: `available.filter((idx) => !localSeen.has(idx))`. -/
def drawPool (s : AppState) : List ℕ :=
  (availableIndices s.data s.visited).filter (fun i => decide (i ∉ roundSeen s))

/-- Status text emitted when every place is visited. -/
def pickAllVisitedMsg : String :=
  "All places are marked visited. Clear visited to start over."

/-- Index drawn by `handlePickRandom` for randomness outcome `c`, when a
draw happens.  `pool[Math.floor(Math.random() * pool.length)]` is modelled
as `pool[c % pool.length]?`: the modulus ranges over exactly the in-bounds
indices the source's expression can produce. -/
def drawPick (c : ℕ) (s : AppState) : Option ℕ :=
  if s.loading || s.data.isEmpty then none
  else if (availableIndices s.data s.visited).isEmpty then none
  else (drawPool s)[c % (drawPool s).length]?

/-- Source `handlePickRandom`, as a state step parameterised by the
randomness outcome `c`.  The early return on `loading || !data.length`,
the all-visited transition, the `localSeen` intersection and exhaustion
reset, the pool draw, and the final writes
(`seen := localSeen ∪ {pick}`, `currentIdx := pick`,
`selectionSource := "hero"`, `statusMessage := null`) follow the source
line by line; the impossible out-of-bounds lookup leaves the state
unchanged and is proved unreachable below. -/
def handlePickRandom (c : ℕ) (s : AppState) : AppState :=
  if s.loading || s.data.isEmpty then s
  else if (availableIndices s.data s.visited).isEmpty then
    { s with statusMessage := some pickAllVisitedMsg,
             currentIdx := none, selectionSource := none }
  else
    match (drawPool s)[c % (drawPool s).length]? with
    | some pick =>
        { s with seen := insert pick (roundSeen s), currentIdx := some pick,
                 selectionSource := some SelSource.hero, statusMessage := none }
    | none => s

/-- Iterated draws: the state after running `handlePickRandom` once per
randomness outcome in `cs`. -/
def runDraws (s : AppState) : List ℕ → AppState
  | [] => s
  | c :: cs => runDraws (handlePickRandom c s) cs

/-- The sequence of indices drawn by a sequence of draw operations. -/
def drawTrace (s : AppState) : List ℕ → List ℕ
  | [] => []
  | c :: cs => (drawPick c s).toList ++ drawTrace (handlePickRandom c s) cs

lemma mem_availableIndices {data : List Place} {visited : Finset String} {i : ℕ} :
    i ∈ availableIndices data visited
      ↔ ∃ p, data[i]? = some p ∧ placeKey p i ∉ visited := by
  unfold availableIndices
  rw [List.mem_filter, List.mem_range]
  constructor
  · rintro ⟨hlt, hp⟩
    match hd : data[i]? with
    | some p =>
      rw [hd] at hp
      exact ⟨p, rfl, of_decide_eq_true hp⟩
    | none =>
      rw [hd] at hp
      exact absurd hp (by simp)
  · rintro ⟨p, hd, hnv⟩
    obtain ⟨hlt, -⟩ := List.getElem?_eq_some.mp hd
    refine ⟨hlt, ?_⟩
    rw [hd]
    exact decide_eq_true hnv

lemma nodup_availableIndices (data : List Place) (visited : Finset String) :
    (availableIndices data visited).Nodup :=
  (List.nodup_range _).filter _

lemma length_availableIndices_eq_card (s : AppState) :
    (availableIndices s.data s.visited).length = (eligibleSet s).card :=
  (List.toFinset_card_of_nodup (nodup_availableIndices _ _)).symm

lemma mem_eligibleSet {s : AppState} {i : ℕ} :
    i ∈ eligibleSet s ↔ ∃ p, s.data[i]? = some p ∧ placeKey p i ∉ s.visited := by
  unfold eligibleSet
  rw [List.mem_toFinset]
  exact mem_availableIndices

lemma roundSeenPre_subset (s : AppState) : roundSeenPre s ⊆ eligibleSet s :=
  Finset.inter_subset_right

lemma mem_drawPool {s : AppState} {i : ℕ} :
    i ∈ drawPool s
      ↔ i ∈ availableIndices s.data s.visited ∧ i ∉ roundSeen s := by
  unfold drawPool
  rw [List.mem_filter]
  simp

lemma drawPool_ne_nil (s : AppState)
    (h : availableIndices s.data s.visited ≠ []) : drawPool s ≠ [] := by
  have hmem : ∃ i, i ∈ drawPool s := by
    by_cases hex : (availableIndices s.data s.visited).length ≤ (roundSeenPre s).card
    · obtain ⟨i, hi⟩ := List.exists_mem_of_ne_nil _ h
      refine ⟨i, mem_drawPool.mpr ⟨hi, ?_⟩⟩
      simp only [roundSeen]
      rw [if_pos hex]
      exact Finset.not_mem_empty i
    · push_neg at hex
      rw [length_availableIndices_eq_card] at hex
      have hne : roundSeenPre s ≠ eligibleSet s := by
        intro he
        rw [he] at hex
        exact lt_irrefl _ hex
      have hss : roundSeenPre s ⊂ eligibleSet s :=
        Finset.ssubset_iff_subset_ne.mpr ⟨roundSeenPre_subset s, hne⟩
      obtain ⟨i, hi, hni⟩ := Finset.exists_of_ssubset hss
      refine ⟨i, mem_drawPool.mpr ⟨List.mem_toFinset.mp hi, ?_⟩⟩
      simp only [roundSeen]
      rw [if_neg (by rw [length_availableIndices_eq_card]; omega)]
      exact hni
  obtain ⟨i, hi⟩ := hmem
  exact List.ne_nil_of_mem hi

lemma drawPick_eq_some {c : ℕ} {s : AppState} {p : ℕ}
    (hp : drawPick c s = some p) :
    (s.loading || s.data.isEmpty) = false
    ∧ (availableIndices s.data s.visited).isEmpty = false
    ∧ (drawPool s)[c % (drawPool s).length]? = some p := by
  unfold drawPick at hp
  cases hb1 : (s.loading || s.data.isEmpty) with
  | true => rw [hb1] at hp; simp at hp
  | false =>
    rw [hb1] at hp
    simp only [Bool.false_eq_true, if_false] at hp
    cases hb2 : (availableIndices s.data s.visited).isEmpty with
    | true => rw [hb2] at hp; simp at hp
    | false =>
      rw [hb2] at hp
      simp only [Bool.false_eq_true, if_false] at hp
      exact ⟨rfl, rfl, hp⟩

lemma handlePickRandom_draw {c : ℕ} {s : AppState} {p : ℕ}
    (hg1 : (s.loading || s.data.isEmpty) = false)
    (hg2 : (availableIndices s.data s.visited).isEmpty = false)
    (hp : (drawPool s)[c % (drawPool s).length]? = some p) :
    handlePickRandom c s =
      { s with seen := insert p (roundSeen s), currentIdx := some p,
               selectionSource := some SelSource.hero, statusMessage := none } := by
  unfold handlePickRandom
  rw [hg1, hg2, hp]
  rfl

lemma handlePickRandom_frame (c : ℕ) (s : AppState) :
    (handlePickRandom c s).data = s.data
    ∧ (handlePickRandom c s).visited = s.visited
    ∧ (handlePickRandom c s).loading = s.loading := by
  unfold handlePickRandom
  split
  · exact ⟨rfl, rfl, rfl⟩
  · split
    · exact ⟨rfl, rfl, rfl⟩
    · split
      · exact ⟨rfl, rfl, rfl⟩
      · exact ⟨rfl, rfl, rfl⟩

lemma eligibleSet_congr {s s' : AppState}
    (hd : s'.data = s.data) (hv : s'.visited = s.visited) :
    eligibleSet s' = eligibleSet s := by
  unfold eligibleSet
  rw [hd, hv]

lemma drawStep (c : ℕ) (s : AppState)
    (hload : s.loading = false)
    (hlt : (roundSeenPre s).card < (eligibleSet s).card) :
    ∃ p, drawPick c s = some p
      ∧ p ∈ eligibleSet s ∧ p ∉ roundSeenPre s
      ∧ (handlePickRandom c s).seen = insert p (roundSeenPre s)
      ∧ (handlePickRandom c s).data = s.data
      ∧ (handlePickRandom c s).visited = s.visited
      ∧ (handlePickRandom c s).loading = false := by
  have hAvailLen := length_availableIndices_eq_card s
  have hno : ¬((availableIndices s.data s.visited).length ≤ (roundSeenPre s).card) := by
    omega
  have hrs : roundSeen s = roundSeenPre s := by
    simp only [roundSeen]
    rw [if_neg hno]
  have havail_ne : availableIndices s.data s.visited ≠ [] := by
    intro h0
    rw [h0] at hAvailLen
    simp at hAvailLen
    omega
  have hpool := drawPool_ne_nil s havail_ne
  have hlen : 0 < (drawPool s).length := List.length_pos.mpr hpool
  have hidx : c % (drawPool s).length < (drawPool s).length := Nat.mod_lt _ hlen
  have hp : (drawPool s)[c % (drawPool s).length]? =
      some ((drawPool s)[c % (drawPool s).length]) :=
    List.getElem?_eq_getElem hidx
  set p := (drawPool s)[c % (drawPool s).length] with hpdef
  have hpmem : p ∈ drawPool s := List.getElem_mem hidx
  obtain ⟨hpav, hpns⟩ := mem_drawPool.mp hpmem
  have hdata_ne : s.data.isEmpty = false := by
    obtain ⟨i, hi⟩ := List.exists_mem_of_ne_nil _ havail_ne
    obtain ⟨q, hq, -⟩ := mem_availableIndices.mp hi
    obtain ⟨hilt, -⟩ := List.getElem?_eq_some.mp hq
    rw [← Bool.not_eq_true, List.isEmpty_iff]
    intro h0
    rw [h0] at hilt
    simp at hilt
  have hg1 : (s.loading || s.data.isEmpty) = false := by
    rw [hload, hdata_ne]
    rfl
  have hg2 : (availableIndices s.data s.visited).isEmpty = false := by
    rw [← Bool.not_eq_true, List.isEmpty_iff]
    exact havail_ne
  have hdraw := handlePickRandom_draw hg1 hg2 hp
  have hpicksome : drawPick c s = some p := by
    unfold drawPick
    rw [hg1, hg2]
    simp only [Bool.false_eq_true, if_false]
    exact hp
  rw [hrs] at hpns hdraw
  have hpE : p ∈ eligibleSet s := by
    simpa [eligibleSet] using hpav
  refine ⟨p, hpicksome, hpE, hpns, ?_, ?_, ?_, ?_⟩
  · rw [hdraw]
  · rw [hdraw]
  · rw [hdraw]
  · rw [hdraw]
    exact hload

lemma drawTrace_spec :
    ∀ (cs : List ℕ) (s : AppState),
      s.loading = false →
      (roundSeenPre s).card + cs.length ≤ (eligibleSet s).card →
      (drawTrace s cs).length = cs.length
      ∧ (drawTrace s cs).Nodup
      ∧ (∀ i ∈ drawTrace s cs, i ∈ eligibleSet s ∧ i ∉ roundSeenPre s) := by
  intro cs
  induction cs with
  | nil =>
    intro s hl hc
    exact ⟨rfl, List.nodup_nil, by intro i hi; simp [drawTrace] at hi⟩
  | cons c cs ih =>
    intro s hl hc
    have hlt : (roundSeenPre s).card < (eligibleSet s).card := by
      simp only [List.length_cons] at hc
      omega
    obtain ⟨p, hpick, hpE, hpR, hseen, hdata, hvis, hload'⟩ := drawStep c s hl hlt
    have hElig : eligibleSet (handlePickRandom c s) = eligibleSet s :=
      eligibleSet_congr hdata hvis
    have hpre' : roundSeenPre (handlePickRandom c s) = insert p (roundSeenPre s) := by
      unfold roundSeenPre
      rw [hseen, hElig]
      apply Finset.inter_eq_left.mpr
      intro x hx
      rcases Finset.mem_insert.mp hx with h | h
      · exact h ▸ hpE
      · exact roundSeenPre_subset s h
    have hcard' : (roundSeenPre (handlePickRandom c s)).card
        = (roundSeenPre s).card + 1 := by
      rw [hpre', Finset.card_insert_of_not_mem hpR]
    have hc' : (roundSeenPre (handlePickRandom c s)).card + cs.length
        ≤ (eligibleSet (handlePickRandom c s)).card := by
      rw [hcard', hElig]
      simp only [List.length_cons] at hc
      omega
    obtain ⟨hlen, hnd, hmem⟩ := ih (handlePickRandom c s) hload' hc'
    have htr : drawTrace s (c :: cs) = p :: drawTrace (handlePickRandom c s) cs := by
      simp [drawTrace, hpick]
    refine ⟨?_, ?_, ?_⟩
    · rw [htr]
      simp [hlen]
    · rw [htr]
      refine List.nodup_cons.mpr ⟨?_, hnd⟩
      intro hpin
      have h2 := (hmem p hpin).2
      rw [hpre'] at h2
      exact h2 (Finset.mem_insert_self p _)
    · rw [htr]
      intro i hi
      rcases List.mem_cons.mp hi with h | h
      · subst h
        exact ⟨hpE, hpR⟩
      · have h2 := hmem i h
        rw [hElig, hpre'] at h2
        exact ⟨h2.1, fun hin => h2.2 (Finset.mem_insert_of_mem hin)⟩

/-- C1: within a round of the no-repeat policy, draws never repeat.  From
any state at a fresh round (no eligible index is in the seen set, which is
how every round starts, including after a load or a reset) with the
dataset and visited set fixed, any sequence of at most `|eligible|` draws
yields pairwise-distinct eligible indices; a full-length sequence covers
every eligible index exactly once.  The second part states the mechanism:
every successful draw inserts its pick into the (intersected) seen set,
and the seen set is cleared exactly when the seen-and-eligible indices
already cover the whole eligible pool. -/
theorem pick_no_repeat_round :
    (∀ (s : AppState) (cs : List ℕ),
      s.loading = false →
      s.seen ∩ eligibleSet s = ∅ →
      cs.length ≤ (eligibleSet s).card →
      (drawTrace s cs).Nodup
      ∧ (∀ i ∈ drawTrace s cs, i ∈ eligibleSet s)
      ∧ (cs.length = (eligibleSet s).card →
          ∀ i ∈ eligibleSet s, i ∈ drawTrace s cs))
    ∧ (∀ (s : AppState) (c p : ℕ), drawPick c s = some p →
        (handlePickRandom c s).seen = insert p (roundSeen s))
    ∧ (∀ s : AppState, (eligibleSet s).card ≤ (s.seen ∩ eligibleSet s).card →
        roundSeen s = ∅) := by
  refine ⟨?_, ?_, ?_⟩
  · intro s cs hl hfresh hle
    have hpre : roundSeenPre s = ∅ := hfresh
    have hc : (roundSeenPre s).card + cs.length ≤ (eligibleSet s).card := by
      rw [hpre]
      simpa using hle
    obtain ⟨hlen, hnd, hmem⟩ := drawTrace_spec cs s hl hc
    refine ⟨hnd, fun i hi => (hmem i hi).1, ?_⟩
    intro hfull i hiE
    have hsub : (drawTrace s cs).toFinset ⊆ eligibleSet s := by
      intro x hx
      exact (hmem x (List.mem_toFinset.mp hx)).1
    have hcard : (eligibleSet s).card ≤ (drawTrace s cs).toFinset.card := by
      rw [List.toFinset_card_of_nodup hnd, hlen, hfull]
    have heq := Finset.eq_of_subset_of_card_le hsub hcard
    rw [← heq] at hiE
    exact List.mem_toFinset.mp hiE
  · intro s c p hp
    obtain ⟨hg1, hg2, hpe⟩ := drawPick_eq_some hp
    rw [handlePickRandom_draw hg1 hg2 hpe]
  · intro s hcov
    simp only [roundSeen]
    rw [if_pos]
    rw [length_availableIndices_eq_card]
    exact hcov

/-- Three-record demo dataset used by the concrete witnesses. -/
def demoPlace (n : ℕ) : Place :=
  { title := some ("P" ++ toString n) }

/-- Concrete freshly-loaded state over the demo dataset. -/
def demoState : AppState :=
  { loading := false
    data := [demoPlace 0, demoPlace 1, demoPlace 2]
    seen := ∅
    currentIdx := none
    selectionSource := none
    visited := ∅
    geoCache := fun _ => none
    userLocation := none
    statusMessage := none
    loadError := none
    datasetInfo := some { total := 3, lastUpdated := none } }

/-- Witness for C1: three draws on the fresh three-place demo state hit
three pairwise-distinct eligible indices covering the whole pool. -/
theorem pick_no_repeat_round_witness :
    demoState.loading = false
    ∧ demoState.seen ∩ eligibleSet demoState = ∅
    ∧ ([0, 0, 0] : List ℕ).length ≤ (eligibleSet demoState).card
    ∧ ((drawTrace demoState [0, 0, 0]).Nodup
        ∧ (∀ i ∈ drawTrace demoState [0, 0, 0], i ∈ eligibleSet demoState)
        ∧ (([0, 0, 0] : List ℕ).length = (eligibleSet demoState).card →
            ∀ i ∈ eligibleSet demoState, i ∈ drawTrace demoState [0, 0, 0])) :=
  ⟨rfl, by decide, by decide,
    pick_no_repeat_round.1 demoState [0, 0, 0] rfl (by decide) (by decide)⟩

/-- The source's derived `current` value:
`currentIdx != null && data[currentIdx] ? data[currentIdx] : null`
(record objects are truthy, so the guard is exactly index validity). -/
def current (s : AppState) : Option Place :=
  match s.currentIdx with
  | some i => s.data[i]?
  | none => none

/-- The source's derived `currentKey` value:
`currentIdx != null && data[currentIdx] ? placeKey(data[currentIdx], currentIdx) : null`. -/
def currentKey (s : AppState) : Option String :=
  match s.currentIdx with
  | some i => (s.data[i]?).map (fun p => placeKey p i)
  | none => none

/-- Source `currentIsVisited = currentKey ? visited.has(currentKey) : false`. -/
def currentIsVisited (s : AppState) : Bool :=
  match currentKey s with
  | some k => decide (k ∈ s.visited)
  | none => false

/-- Source `currentCoords = currentKey ? geoCache[currentKey] : undefined`. -/
def currentCoords (s : AppState) : Option Coordinates :=
  match currentKey s with
  | some k => s.geoCache k
  | none => none

/-- Source `currentDistance`: null unless there is a current key, a user
location and cached coordinates for the key; otherwise the distance from
the user location to those coordinates.  The floating-point haversine is
abstracted by the `dist` parameter. -/
def currentDistance (dist : Coordinates → Coordinates → ℚ) (s : AppState) : Option ℚ :=
  match currentKey s, s.userLocation with
  | some k, some u => (s.geoCache k).map (fun c => dist u c)
  | _, _ => none

/-- Status text emitted by a successful mark-visited. -/
def markVisitedMsg : String := "Marked as visited."

/-- Source `markVisited`: early return when `currentIdx == null || !currentKey`
or when the key is already visited; otherwise insert the key into the
visited set, delete the picked index from the seen set, clear the focus,
and emit the confirmation status. -/
def markVisited (s : AppState) : AppState :=
  match s.currentIdx, currentKey s with
  | some i, some key =>
      if key ∈ s.visited then s
      else
        { s with visited := insert key s.visited, seen := s.seen.erase i,
                 currentIdx := none, statusMessage := some markVisitedMsg,
                 selectionSource := none }
  | _, _ => s

/-- C3: the draw operation is total and never indexes out of bounds.
Exactly one of three things happens: the guard returns the state
unchanged (loading or empty dataset); the eligible pool is empty and the
state transitions to idle with the terminal status, touching neither the
seen set nor the visited set; or the pool for this draw is non-empty, the
random index is strictly in bounds, and the draw picks the corresponding
element. -/
theorem pick_total (s : AppState) (c : ℕ) :
    (s.loading = true ∨ s.data = [] → handlePickRandom c s = s)
    ∧ (s.loading = false → s.data ≠ [] →
        availableIndices s.data s.visited = [] →
        handlePickRandom c s =
          { s with statusMessage := some pickAllVisitedMsg,
                   currentIdx := none, selectionSource := none })
    ∧ (s.loading = false → s.data ≠ [] →
        availableIndices s.data s.visited ≠ [] →
        drawPool s ≠ []
        ∧ c % (drawPool s).length < (drawPool s).length
        ∧ ∃ p, (drawPool s)[c % (drawPool s).length]? = some p
            ∧ drawPick c s = some p
            ∧ handlePickRandom c s =
                { s with seen := insert p (roundSeen s), currentIdx := some p,
                         selectionSource := some SelSource.hero,
                         statusMessage := none }) := by
  refine ⟨?_, ?_, ?_⟩
  · intro h
    have hg : (s.loading || s.data.isEmpty) = true := by
      rcases h with h | h
      · rw [h]; rfl
      · rw [h]; simp
    unfold handlePickRandom
    rw [hg]
    rfl
  · intro hl hd hav
    have hg1 : (s.loading || s.data.isEmpty) = false := by
      rw [hl]
      simpa [List.isEmpty_iff] using hd
    have hg2 : (availableIndices s.data s.visited).isEmpty = true := by
      simpa [List.isEmpty_iff] using hav
    unfold handlePickRandom
    rw [hg1, hg2]
    rfl
  · intro hl hd hav
    have hpool := drawPool_ne_nil s hav
    have hlen : 0 < (drawPool s).length := List.length_pos.mpr hpool
    have hidx : c % (drawPool s).length < (drawPool s).length := Nat.mod_lt _ hlen
    have hp : (drawPool s)[c % (drawPool s).length]? =
        some ((drawPool s)[c % (drawPool s).length]) :=
      List.getElem?_eq_getElem hidx
    have hg1 : (s.loading || s.data.isEmpty) = false := by
      rw [hl]
      simpa [List.isEmpty_iff] using hd
    have hg2 : (availableIndices s.data s.visited).isEmpty = false := by
      rw [← Bool.not_eq_true, List.isEmpty_iff]
      exact hav
    refine ⟨hpool, hidx, (drawPool s)[c % (drawPool s).length], hp, ?_,
      handlePickRandom_draw hg1 hg2 hp⟩
    unfold drawPick
    rw [hg1, hg2]
    simp only [Bool.false_eq_true, if_false]
    exact hp

/-- Witness for C3 on the demo state: the pool is non-empty and draw 5
picks an in-bounds element. -/
theorem pick_total_witness :
    demoState.loading = false
    ∧ demoState.data ≠ []
    ∧ availableIndices demoState.data demoState.visited ≠ []
    ∧ (drawPool demoState ≠ []
        ∧ 5 % (drawPool demoState).length < (drawPool demoState).length
        ∧ ∃ p, (drawPool demoState)[5 % (drawPool demoState).length]? = some p
            ∧ drawPick 5 demoState = some p
            ∧ handlePickRandom 5 demoState =
                { demoState with
                    seen := insert p (roundSeen demoState),
                    currentIdx := some p,
                    selectionSource := some SelSource.hero,
                    statusMessage := none }) :=
  ⟨rfl, by decide, by decide,
    (pick_total demoState 5).2.2 rfl (by decide) (by decide)⟩

lemma drawPick_mem_eligible {c : ℕ} {s : AppState} {p : ℕ}
    (hp : drawPick c s = some p) : p ∈ eligibleSet s := by
  obtain ⟨-, -, hpe⟩ := drawPick_eq_some hp
  obtain ⟨hlt, he⟩ := List.getElem?_eq_some.mp hpe
  have hmem : p ∈ drawPool s := he ▸ List.getElem_mem hlt
  have hav := (mem_drawPool.mp hmem).1
  simpa [eligibleSet] using hav

/-- C2: a draw never yields an index whose derived key is visited; an
index whose key is visited is outside the eligible pool of every draw in
any subsequent sequence of draws and never appears in the drawn trace;
and marking the focused place visited puts its key into the visited set. -/
theorem pick_never_visited :
    (∀ (s : AppState) (c p : ℕ) (q : Place),
      drawPick c s = some p → s.data[p]? = some q → placeKey q p ∉ s.visited)
    ∧ (∀ (s : AppState) (i : ℕ) (q : Place),
        s.data[i]? = some q → placeKey q i ∈ s.visited →
        ∀ cs : List ℕ,
          i ∉ drawTrace s cs ∧ i ∉ eligibleSet (runDraws s cs))
    ∧ (∀ (s : AppState) (i : ℕ) (q : Place),
        s.currentIdx = some i → s.data[i]? = some q →
        placeKey q i ∈ (markVisited s).visited) := by
  have hstep : ∀ (s : AppState) (c p : ℕ) (q : Place),
      drawPick c s = some p → s.data[p]? = some q → placeKey q p ∉ s.visited := by
    intro s c p q hp hq
    have hpE := drawPick_mem_eligible hp
    obtain ⟨q', hq', hnv⟩ := mem_eligibleSet.mp hpE
    rw [hq] at hq'
    injection hq' with hqq
    rw [hqq]
    exact hnv
  refine ⟨hstep, ?_, ?_⟩
  · intro s i q hq hvis cs
    induction cs generalizing s with
    | nil =>
      refine ⟨by simp [drawTrace], ?_⟩
      intro hE
      have hE' : i ∈ eligibleSet s := hE
      obtain ⟨q', hq', hnv⟩ := mem_eligibleSet.mp hE'
      rw [hq] at hq'
      injection hq' with hqq
      rw [← hqq] at hnv
      exact hnv hvis
    | cons c cs ih =>
      obtain ⟨hd, hv, -⟩ := handlePickRandom_frame c s
      have hq2 : (handlePickRandom c s).data[i]? = some q := by rw [hd]; exact hq
      have hvis2 : placeKey q i ∈ (handlePickRandom c s).visited := by
        rw [hv]; exact hvis
      obtain ⟨ihtr, ihel⟩ := ih (handlePickRandom c s) hq2 hvis2
      constructor
      · show i ∉ (drawPick c s).toList ++ drawTrace (handlePickRandom c s) cs
        intro hmem
        rcases List.mem_append.mp hmem with h | h
        · match hp : drawPick c s with
          | none => rw [hp] at h; simp at h
          | some p =>
            rw [hp] at h
            simp at h
            subst h
            exact hstep s c i q hp hq hvis
        · exact ihtr h
      · exact ihel
  · intro s i q hidx hq
    have hck : currentKey s = some (placeKey q i) := by
      unfold currentKey
      rw [hidx]
      show Option.map (fun p => placeKey p i) s.data[i]? = some (placeKey q i)
      rw [hq]
      rfl
    unfold markVisited
    rw [hidx, hck]
    show placeKey q i ∈
      (if placeKey q i ∈ s.visited then s
        else { s with visited := insert (placeKey q i) s.visited,
                      seen := s.seen.erase i, currentIdx := none,
                      statusMessage := some markVisitedMsg,
                      selectionSource := none }).visited
    by_cases h : placeKey q i ∈ s.visited
    · rw [if_pos h]
      exact h
    · rw [if_neg h]
      exact Finset.mem_insert_self _ _

/-- Demo state in which the key of record 1 is already visited. -/
def demoVisited : AppState :=
  { demoState with visited := {placeKey (demoPlace 1) 1} }

/-- Witness for C2: with record 1 visited, two draws on the demo state
never produce index 1 and leave it outside the eligible pool. -/
theorem pick_never_visited_witness :
    demoVisited.data[1]? = some (demoPlace 1)
    ∧ placeKey (demoPlace 1) 1 ∈ demoVisited.visited
    ∧ (1 ∉ drawTrace demoVisited [0, 0]
        ∧ 1 ∉ eligibleSet (runDraws demoVisited [0, 0])) :=
  ⟨by decide, by decide,
    pick_never_visited.2.1 demoVisited 1 (demoPlace 1) (by decide) (by decide) [0, 0]⟩

/-- C8: mark-visited is a no-op when nothing is focused, when the focused
index no longer resolves to a record, or when the focused key is already
visited; otherwise it inserts the key into the visited set, deletes the
focused index from the seen set, clears the focus to idle, and emits the
confirmation status, touching nothing else. -/
theorem markVisited_spec (s : AppState) :
    (s.currentIdx = none → markVisited s = s)
    ∧ (∀ i, s.currentIdx = some i → s.data[i]? = none → markVisited s = s)
    ∧ (∀ k, currentKey s = some k → k ∈ s.visited → markVisited s = s)
    ∧ (∀ i k, s.currentIdx = some i → currentKey s = some k → k ∉ s.visited →
        markVisited s =
          { s with visited := insert k s.visited, seen := s.seen.erase i,
                   currentIdx := none, statusMessage := some markVisitedMsg,
                   selectionSource := none }) := by
  refine ⟨?_, ?_, ?_, ?_⟩
  · intro h
    unfold markVisited
    rw [h]
  · intro i h hd
    have hck : currentKey s = none := by
      unfold currentKey
      rw [h]
      show Option.map (fun p => placeKey p i) s.data[i]? = none
      rw [hd]
      rfl
    unfold markVisited
    rw [h, hck]
  · intro k hck hk
    unfold markVisited
    rcases hidx : s.currentIdx with _ | i
    · rfl
    · rw [hck]
      show (if k ∈ s.visited then s
        else { s with visited := insert k s.visited, seen := s.seen.erase i,
                      currentIdx := none, statusMessage := some markVisitedMsg,
                      selectionSource := none }) = s
      rw [if_pos hk]
  · intro i k hidx hck hk
    unfold markVisited
    rw [hidx, hck]
    show (if k ∈ s.visited then s
      else { s with visited := insert k s.visited, seen := s.seen.erase i,
                    currentIdx := none, statusMessage := some markVisitedMsg,
                    selectionSource := none }) = _
    rw [if_neg hk]

/-- Demo state focused on record 0 via the hero draw. -/
def demoFocused : AppState :=
  { demoState with currentIdx := some 0, seen := {0},
                   selectionSource := some SelSource.hero }

/-- Witness for C8: marking the focused demo record visited inserts its
key, removes the index from the seen set and returns to idle. -/
theorem markVisited_spec_witness :
    demoFocused.currentIdx = some 0
    ∧ currentKey demoFocused = some (placeKey (demoPlace 0) 0)
    ∧ placeKey (demoPlace 0) 0 ∉ demoFocused.visited
    ∧ markVisited demoFocused =
        { demoFocused with
            visited := insert (placeKey (demoPlace 0) 0) demoFocused.visited,
            seen := demoFocused.seen.erase 0,
            currentIdx := none, statusMessage := some markVisitedMsg,
            selectionSource := none } :=
  ⟨rfl, by decide, by decide,
    (markVisited_spec demoFocused).2.2.2 0 (placeKey (demoPlace 0) 0) rfl
      (by decide) (by decide)⟩

/-- C10: whenever the focused index does not resolve to a record of the
loaded data (and in particular whenever nothing is focused), every derived
exposure of the focused place is null or false rather than an
out-of-bounds access; `current` and `currentKey` are non-null exactly when
the focused index indexes an existing record. -/
theorem current_views_safe (dist : Coordinates → Coordinates → ℚ) (s : AppState) :
    (∀ i, s.currentIdx = some i → s.data[i]? = none →
      current s = none ∧ currentKey s = none ∧ currentIsVisited s = false
      ∧ currentCoords s = none ∧ currentDistance dist s = none)
    ∧ (s.currentIdx = none →
      current s = none ∧ currentKey s = none ∧ currentIsVisited s = false
      ∧ currentCoords s = none ∧ currentDistance dist s = none)
    ∧ (current s ≠ none ↔ ∃ i p, s.currentIdx = some i ∧ s.data[i]? = some p)
    ∧ (currentKey s ≠ none ↔ ∃ i p, s.currentIdx = some i ∧ s.data[i]? = some p) := by
  refine ⟨?_, ?_, ?_, ?_⟩
  · intro i hidx hd
    have hc : current s = none := by
      unfold current
      rw [hidx]
      exact hd
    have hck : currentKey s = none := by
      unfold currentKey
      rw [hidx]
      show Option.map (fun p => placeKey p i) s.data[i]? = none
      rw [hd]
      rfl
    refine ⟨hc, hck, ?_, ?_, ?_⟩
    · unfold currentIsVisited
      rw [hck]
    · unfold currentCoords
      rw [hck]
    · unfold currentDistance
      rw [hck]
  · intro hidx
    have hc : current s = none := by
      unfold current
      rw [hidx]
    have hck : currentKey s = none := by
      unfold currentKey
      rw [hidx]
    refine ⟨hc, hck, ?_, ?_, ?_⟩
    · unfold currentIsVisited
      rw [hck]
    · unfold currentCoords
      rw [hck]
    · unfold currentDistance
      rw [hck]
  · unfold current
    rcases hidx : s.currentIdx with _ | i
    · simp
    · constructor
      · intro h
        have h' : s.data[i]? ≠ none := h
        match hd : s.data[i]? with
        | some p => exact ⟨i, p, rfl, hd⟩
        | none => rw [hd] at h'; exact absurd rfl h'
      · rintro ⟨j, p, hj, hp⟩
        injection hj with hj
        subst hj
        show s.data[i]? ≠ none
        rw [hp]
        simp
  · unfold currentKey
    rcases hidx : s.currentIdx with _ | i
    · simp
    · constructor
      · intro h
        have h' : Option.map (fun p => placeKey p i) s.data[i]? ≠ none := h
        match hd : s.data[i]? with
        | some p => exact ⟨i, p, rfl, hd⟩
        | none =>
          rw [hd] at h'
          exact absurd rfl h'
      · rintro ⟨j, p, hj, hp⟩
        injection hj with hj
        subst hj
        show Option.map (fun p => placeKey p i) s.data[i]? ≠ none
        rw [hp]
        simp

/-- Demo state whose focused index 5 is out of bounds for the three-record
dataset (as after a dataset shrink). -/
def demoStale : AppState :=
  { demoState with currentIdx := some 5 }

/-- Witness for C10: with the stale focus on index 5 every derived view is
null or false. -/
theorem current_views_safe_witness :
    demoStale.currentIdx = some 5
    ∧ demoStale.data[5]? = none
    ∧ (current demoStale = none ∧ currentKey demoStale = none
        ∧ currentIsVisited demoStale = false ∧ currentCoords demoStale = none
        ∧ currentDistance (fun _ _ => 0) demoStale = none) :=
  ⟨rfl, by decide,
    (current_views_safe (fun _ _ => 0) demoStale).1 5 rfl (by decide)⟩

/-- Parsed JSON body of the dataset fetch: a top-level array of records,
an object whose optional `data` field may hold the array, or any other
shape (including a non-object and an object whose `data` is not an
array). -/
inductive Payload where
  | arr (records : List Place) : Payload
  | obj (dataField : Option (List Place)) : Payload
  | other : Payload
deriving DecidableEq

/-- Source normalization
`Array.isArray(raw) ? raw : Array.isArray(raw?.data) ? raw.data : []`. -/
def normalizePayload : Payload → List Place
  | Payload.arr rs => rs
  | Payload.obj (some rs) => rs
  | Payload.obj none => []
  | Payload.other => []

/-- Fetch outcome observed by `loadDataset` after `res.json()`. -/
structure FetchResponse where
  ok : Bool
  status : ℕ
  body : Payload
deriving DecidableEq

/-- One element of a parsed persisted array: a string or any non-string
value (the source keeps only the strings). -/
inductive StoredItem where
  | str (s : String) : StoredItem
  | other : StoredItem
deriving DecidableEq

/-- Result of `JSON.parse` on a present persisted entry: an array of
items, some non-array value, or a parse failure. -/
inductive StoredParse where
  | arr (items : List StoredItem) : StoredParse
  | notArray : StoredParse
  | corrupt : StoredParse
deriving DecidableEq

/-- Source extraction of `storedKeys`: `[]` when the entry is absent,
fails to parse, or is not an array; otherwise
`parsed.filter((v) => typeof v === "string")`. -/
def extractStoredKeys : Option StoredParse → List String
  | some (StoredParse.arr items) =>
      items.filterMap (fun it =>
        match it with
        | StoredItem.str s => some s
        | StoredItem.other => none)
  | _ => []

/-- Source coordinate extraction from a location object:
`Number(location.lat ?? location.latitude)` and
`Number(location.lng ?? location.lon ?? location.longitude)`, kept only
when both are non-NaN (`Number(undefined)` is NaN, covered by `getD nan`). -/
def coordOfLocation (loc : Location) : Option Coordinates :=
  match (loc.lat.orElse fun _ => loc.latitude).getD JsNum.nan,
        ((loc.lng.orElse fun _ => loc.lon).orElse fun _ => loc.longitude).getD JsNum.nan with
  | JsNum.num la, JsNum.num ln => some { lat := la, lng := ln }
  | _, _ => none

/-- Coordinates of a record, when its `location` field is a present
object with valid coordinate data (`location && typeof location === "object"`). -/
def extractCoords (p : Place) : Option Coordinates :=
  match p.location with
  | some loc => coordOfLocation loc
  | none => none

/-- One iteration of the source's load loop for the geo cache:
`if (valid) nextCoords[key] = { lat, lng }` (assignment overwrites). -/
def geoCacheStep (acc : String → Option Coordinates) (ip : ℕ × Place) :
    String → Option Coordinates :=
  match extractCoords ip.2 with
  | some c => Function.update acc (placeKey ip.2 ip.1) (some c)
  | none => acc

/-- The `nextCoords` object after the source's `arr.forEach` loop. -/
def buildGeoCache (records : List Place) : String → Option Coordinates :=
  records.enum.foldl geoCacheStep (fun _ => none)

/-- The `nextVisited` set after the source's `arr.forEach` loop:
`if (storedSet.has(key)) nextVisited.add(key)`. -/
def buildVisited (storedSet : Finset String) (records : List Place) : Finset String :=
  (records.enum.filterMap (fun ip =>
    if placeKey ip.2 ip.1 ∈ storedSet then some (placeKey ip.2 ip.1) else none)).toFinset

/-- The `freshest` timestamp after the source's loop: the maximum
parseable `scrapedAt` value (`if (!freshest || timestamp > freshest)`). -/
def freshestOf (records : List Place) : Option ℚ :=
  records.foldl
    (fun acc p =>
      match p.scrapedAt with
      | some (some t) =>
          match acc with
          | none => some t
          | some f => if f < t then some t else some f
      | _ => acc)
    none

/-- The catch-branch of `loadDataset`: empty data, empty visited set,
empty geo cache, no dataset info, the error message, cleared selection
source and status. -/
def loadErrorState (s : AppState) (msg : String) : AppState :=
  { s with data := [], visited := ∅, geoCache := fun _ => none,
           datasetInfo := none, loadError := some msg,
           selectionSource := none, statusMessage := none, loading := false }

/-- Source `loadDataset` as a state transformer over the observed fetch
response and the persisted entry for the active dataset: throwing on a
non-ok response or an empty/invalid normalized payload lands in the catch
branch; otherwise the per-record loop results and the reset focus/seen
state are installed. -/
def loadDataset (resp : FetchResponse) (stored : Option StoredParse)
    (s : AppState) : AppState :=
  if resp.ok = false then
    loadErrorState s ("Failed to load dataset (status " ++ toString resp.status ++ ")")
  else if (normalizePayload resp.body).isEmpty then
    loadErrorState s "Dataset is empty or invalid."
  else
    { s with data := normalizePayload resp.body,
             visited := buildVisited (extractStoredKeys stored).toFinset
               (normalizePayload resp.body),
             geoCache := buildGeoCache (normalizePayload resp.body),
             datasetInfo := some { total := (normalizePayload resp.body).length,
                                   lastUpdated := freshestOf (normalizePayload resp.body) },
             seen := ∅, currentIdx := none, selectionSource := none,
             statusMessage := none, loadError := none, loading := false }

/-- The persist effect keyed on the visited set
(`localStorage.setItem(storageKey(datasetId), JSON.stringify(Array.from(visited)))`),
which runs after every change of the visited state, including the
`setVisited` performed by a completed dataset load.  `Array.from` of a JS
set enumerates its elements; the model enumerates them sorted. -/
def persistVisitedEntry (visited : Finset String) : StoredParse :=
  StoredParse.arr ((visited.sort (fun a b => a ≤ b)).map StoredItem.str)

/-- A completed dataset load together with the persisted entry the
visited-persist effect then writes for the active dataset. -/
def loadAndPersist (resp : FetchResponse) (stored : Option StoredParse)
    (s : AppState) : AppState × StoredParse :=
  (loadDataset resp stored s, persistVisitedEntry (loadDataset resp stored s).visited)

lemma loadDataset_success (resp : FetchResponse) (stored : Option StoredParse)
    (s : AppState) (hok : resp.ok = true)
    (hne : normalizePayload resp.body ≠ []) :
    loadDataset resp stored s =
      { s with data := normalizePayload resp.body,
               visited := buildVisited (extractStoredKeys stored).toFinset
                 (normalizePayload resp.body),
               geoCache := buildGeoCache (normalizePayload resp.body),
               datasetInfo := some { total := (normalizePayload resp.body).length,
                                     lastUpdated := freshestOf (normalizePayload resp.body) },
               seen := ∅, currentIdx := none, selectionSource := none,
               statusMessage := none, loadError := none, loading := false } := by
  unfold loadDataset
  rw [if_neg (by rw [hok]; simp), if_neg (fun h => hne (List.isEmpty_iff.mp h))]

/-- C4: a dataset load fails exactly when the response is non-success or
the normalized payload (top-level array, or the array under `data`) is
empty; on failure the resulting state has zero records, an empty visited
set, an empty geo cache, no dataset info and a visible error message; on
success the error is cleared and the records are installed. -/
theorem load_failure_spec (resp : FetchResponse) (stored : Option StoredParse)
    (s : AppState) :
    ((loadDataset resp stored s).loadError ≠ none
        ↔ resp.ok = false ∨ normalizePayload resp.body = [])
    ∧ (resp.ok = false ∨ normalizePayload resp.body = [] →
        (loadDataset resp stored s).data = []
        ∧ (loadDataset resp stored s).visited = ∅
        ∧ (∀ k, (loadDataset resp stored s).geoCache k = none)
        ∧ (loadDataset resp stored s).datasetInfo = none
        ∧ ∃ m, (loadDataset resp stored s).loadError = some m)
    ∧ (resp.ok = true → normalizePayload resp.body ≠ [] →
        (loadDataset resp stored s).loadError = none
        ∧ (loadDataset resp stored s).data = normalizePayload resp.body) := by
  by_cases hok : resp.ok = false
  · have hld : loadDataset resp stored s =
        loadErrorState s ("Failed to load dataset (status " ++ toString resp.status ++ ")") := by
      unfold loadDataset
      rw [if_pos hok]
    refine ⟨?_, ?_, ?_⟩
    · rw [hld]
      simp [loadErrorState, hok]
    · intro h
      rw [hld]
      exact ⟨rfl, rfl, fun k => rfl, rfl, _, rfl⟩
    · intro h1 h2
      rw [h1] at hok
      exact absurd hok (by simp)
  · have hok' : resp.ok = true := by
      revert hok
      cases resp.ok <;> simp
    by_cases harr : normalizePayload resp.body = []
    · have hld : loadDataset resp stored s =
          loadErrorState s "Dataset is empty or invalid." := by
        unfold loadDataset
        rw [if_neg hok, if_pos (List.isEmpty_iff.mpr harr)]
      refine ⟨?_, ?_, ?_⟩
      · rw [hld]
        simp [loadErrorState, harr]
      · intro h
        rw [hld]
        exact ⟨rfl, rfl, fun k => rfl, rfl, _, rfl⟩
      · intro h1 h2
        exact absurd harr h2
    · have hld := loadDataset_success resp stored s hok' harr
      refine ⟨?_, ?_, ?_⟩
      · rw [hld]
        simp [hok', harr]
      · intro h
        rcases h with h | h
        · exact absurd h hok
        · exact absurd h harr
      · intro h1 h2
        rw [hld]
        exact ⟨rfl, rfl⟩

/-- Witness for C4: loading `{ "data": [] }` fails and leaves the empty
coherent state with a visible message. -/
theorem load_failure_spec_witness :
    (({ ok := true, status := 200, body := Payload.obj (some []) } : FetchResponse).ok = false
      ∨ normalizePayload (Payload.obj (some [])) = [])
    ∧ ((loadDataset { ok := true, status := 200, body := Payload.obj (some []) }
          none demoState).data = []
        ∧ (loadDataset { ok := true, status := 200, body := Payload.obj (some []) }
            none demoState).visited = ∅
        ∧ (∀ k, (loadDataset { ok := true, status := 200, body := Payload.obj (some []) }
            none demoState).geoCache k = none)
        ∧ (loadDataset { ok := true, status := 200, body := Payload.obj (some []) }
            none demoState).datasetInfo = none
        ∧ ∃ m, (loadDataset { ok := true, status := 200, body := Payload.obj (some []) }
            none demoState).loadError = some m) :=
  ⟨Or.inr rfl,
    (load_failure_spec { ok := true, status := 200, body := Payload.obj (some []) }
      none demoState).2.1 (Or.inr rfl)⟩

/-- The set of keys of the loaded records. -/
def recordKeys (records : List Place) : Finset String :=
  (records.enum.map (fun ip => placeKey ip.2 ip.1)).toFinset

lemma buildVisited_eq (storedSet : Finset String) (records : List Place) :
    buildVisited storedSet records = storedSet ∩ recordKeys records := by
  ext k
  unfold buildVisited recordKeys
  rw [List.mem_toFinset, List.mem_filterMap, Finset.mem_inter, List.mem_toFinset,
    List.mem_map]
  constructor
  · rintro ⟨ip, hip, hif⟩
    by_cases h : placeKey ip.2 ip.1 ∈ storedSet
    · rw [if_pos h] at hif
      injection hif with hif
      subst hif
      exact ⟨h, ip, hip, rfl⟩
    · rw [if_neg h] at hif
      exact absurd hif (by simp)
  · rintro ⟨hk, ip, hip, hkey⟩
    refine ⟨ip, hip, ?_⟩
    rw [hkey, if_pos hk]

/-- C5 as amended: a successful load initializes the in-memory visited
set to exactly the intersection of the persisted key array for the
dataset (corrupt or non-array persisted content reads as empty) with the
keys of the loaded records, and the visited-persist effect that follows
the load rewrites the persisted entry to exactly this intersection, so
orphaned persisted keys matching no current record are dropped from the
store rather than retained. -/
theorem visited_init_intersection (resp : FetchResponse)
    (stored : Option StoredParse) (s : AppState)
    (hok : resp.ok = true) (hne : normalizePayload resp.body ≠ []) :
    (loadDataset resp stored s).visited
        = (extractStoredKeys stored).toFinset ∩ recordKeys (normalizePayload resp.body)
    ∧ (loadAndPersist resp stored s).2
        = StoredParse.arr
            ((((extractStoredKeys stored).toFinset
                ∩ recordKeys (normalizePayload resp.body)).sort (fun a b => a ≤ b)).map
              StoredItem.str) := by
  have hv : (loadDataset resp stored s).visited
      = (extractStoredKeys stored).toFinset ∩ recordKeys (normalizePayload resp.body) := by
    rw [loadDataset_success resp stored s hok hne]
    exact buildVisited_eq _ _
  refine ⟨hv, ?_⟩
  show persistVisitedEntry (loadDataset resp stored s).visited = _
  rw [hv]
  rfl

lemma extract_persist (v : Finset String) :
    extractStoredKeys (some (persistVisitedEntry v)) = v.sort (fun a b => a ≤ b) := by
  unfold extractStoredKeys persistVisitedEntry
  show List.filterMap
      (fun it =>
        match it with
        | StoredItem.str s => some s
        | StoredItem.other => none)
      (List.map StoredItem.str (Finset.sort (fun a b => a ≤ b) v))
    = Finset.sort (fun a b => a ≤ b) v
  rw [List.filterMap_map]
  have hcomp : ((fun it =>
      match it with
      | StoredItem.str s => some s
      | StoredItem.other => none) ∘ StoredItem.str) = (fun s : String => some s) := rfl
  rw [hcomp]
  exact List.filterMap_some _

/-- Persisted entry holding an orphaned key `"orphan"` next to the live
key `"k1"`. -/
def orphanStored : Option StoredParse :=
  some (StoredParse.arr [StoredItem.str "orphan", StoredItem.str "k1"])

/-- Single record whose key is `"k1"`. -/
def recK1 : Place := { url := some "k1" }

/-- Successful response carrying the single-record dataset. -/
def loadRespK1 : FetchResponse :=
  { ok := true, status := 200, body := Payload.arr [recK1] }

/-- Counterexample to C5 as stated: after the load completes, the
persist effect does not leave the persisted entry unchanged — the
orphaned key is dropped from the store, even though it was present
before the load. -/
theorem visited_persist_counterexample :
    "orphan" ∈ extractStoredKeys orphanStored
    ∧ (loadAndPersist loadRespK1 orphanStored demoState).2
        ≠ StoredParse.arr [StoredItem.str "orphan", StoredItem.str "k1"]
    ∧ "orphan" ∉ extractStoredKeys (some (loadAndPersist loadRespK1 orphanStored demoState).2)
    ∧ (loadAndPersist loadRespK1 orphanStored demoState).1.visited = {"k1"} := by
  have hvis : (loadDataset loadRespK1 orphanStored demoState).visited = {"k1"} := by
    decide
  have hnotin : "orphan" ∉ extractStoredKeys
      (some (loadAndPersist loadRespK1 orphanStored demoState).2) := by
    show "orphan" ∉ extractStoredKeys
      (some (persistVisitedEntry (loadDataset loadRespK1 orphanStored demoState).visited))
    rw [hvis, extract_persist]
    rw [Finset.mem_sort]
    decide
  refine ⟨by decide, ?_, hnotin, hvis⟩
  intro h
  apply hnotin
  show "orphan" ∈ extractStoredKeys (some (loadAndPersist loadRespK1 orphanStored demoState).2)
  rw [h]
  decide

/-- Witness for the amended C5 at the concrete orphaned store. -/
theorem visited_init_intersection_witness :
    loadRespK1.ok = true
    ∧ normalizePayload loadRespK1.body ≠ []
    ∧ ((loadDataset loadRespK1 orphanStored demoState).visited
          = (extractStoredKeys orphanStored).toFinset
              ∩ recordKeys (normalizePayload loadRespK1.body)
        ∧ (loadAndPersist loadRespK1 orphanStored demoState).2
            = StoredParse.arr
                ((((extractStoredKeys orphanStored).toFinset
                    ∩ recordKeys (normalizePayload loadRespK1.body)).sort
                      (fun a b => a ≤ b)).map
                  StoredItem.str)) :=
  ⟨rfl, by decide,
    visited_init_intersection loadRespK1 orphanStored demoState rfl (by decide)⟩

lemma geoCacheStep_ne_none (init : String → Option Coordinates)
    (ip : ℕ × Place) (k : String) :
    (geoCacheStep init ip) k ≠ none
      ↔ (placeKey ip.2 ip.1 = k ∧ extractCoords ip.2 ≠ none) ∨ init k ≠ none := by
  unfold geoCacheStep
  match hec : extractCoords ip.2 with
  | some c =>
    show (Function.update init (placeKey ip.2 ip.1) (some c)) k ≠ none ↔ _
    by_cases hk : placeKey ip.2 ip.1 = k
    · subst hk
      rw [Function.update_same]
      simp [hec]
    · rw [Function.update_noteq (Ne.symm hk)]
      simp [hk]
  | none =>
    show init k ≠ none ↔ _
    simp [hec]

lemma foldl_geoCacheStep_ne_none (l : List (ℕ × Place)) :
    ∀ (init : String → Option Coordinates) (k : String),
      (l.foldl geoCacheStep init) k ≠ none
        ↔ (∃ ip ∈ l, placeKey ip.2 ip.1 = k ∧ extractCoords ip.2 ≠ none)
          ∨ init k ≠ none := by
  induction l with
  | nil =>
    intro init k
    simp
  | cons ip l ih =>
    intro init k
    rw [List.foldl_cons, ih, geoCacheStep_ne_none]
    constructor
    · rintro (⟨ip', hip', hrest⟩ | (h | h))
      · exact Or.inl ⟨ip', List.mem_cons_of_mem _ hip', hrest⟩
      · exact Or.inl ⟨ip, List.mem_cons_self _ _, h⟩
      · exact Or.inr h
    · rintro (⟨ip', hip', hrest⟩ | h)
      · rcases List.mem_cons.mp hip' with h1 | h1
        · subst h1
          exact Or.inr (Or.inl hrest)
        · exact Or.inl ⟨ip', h1, hrest⟩
      · exact Or.inr (Or.inr h)

lemma buildGeoCache_ne_none (records : List Place) (k : String) :
    (buildGeoCache records) k ≠ none
      ↔ ∃ j q, records[j]? = some q ∧ placeKey q j = k ∧ extractCoords q ≠ none := by
  unfold buildGeoCache
  rw [foldl_geoCacheStep_ne_none]
  constructor
  · rintro (⟨ip, hip, hk, hc⟩ | h)
    · exact ⟨ip.1, ip.2, List.mk_mem_enum_iff_getElem?.mp hip, hk, hc⟩
    · exact absurd rfl h
  · rintro ⟨j, q, hq, hk, hc⟩
    exact Or.inl ⟨(j, q), List.mk_mem_enum_iff_getElem?.mpr hq, hk, hc⟩

/-- C9 as amended: the geo cache derived on load has an entry under a
record's key if and only if some loaded record sharing that key has a
location object whose latitude (`lat`/`latitude` spelling) and longitude
(`lng`/`lon`/`longitude` spelling) both coerce to non-NaN values.  In
particular a record with valid coordinates always has an entry under its
key, and the per-record equivalence stated by the claim holds whenever no
other record shares the record's key. -/
theorem geoCache_entry_iff (records : List Place) (i : ℕ) (p : Place)
    (h : records[i]? = some p) :
    ((buildGeoCache records) (placeKey p i) ≠ none
        ↔ ∃ j q, records[j]? = some q ∧ placeKey q j = placeKey p i
            ∧ extractCoords q ≠ none)
    ∧ (extractCoords p ≠ none → (buildGeoCache records) (placeKey p i) ≠ none)
    ∧ ((∀ j q, records[j]? = some q → placeKey q j = placeKey p i → q = p) →
        ((buildGeoCache records) (placeKey p i) ≠ none ↔ extractCoords p ≠ none)) := by
  have hmain := buildGeoCache_ne_none records (placeKey p i)
  refine ⟨hmain, ?_, ?_⟩
  · intro hc
    exact hmain.mpr ⟨i, p, h, rfl, hc⟩
  · intro huniq
    rw [hmain]
    constructor
    · rintro ⟨j, q, hq, hk, hc⟩
      rw [huniq j q hq hk] at hc
      exact hc
    · intro hc
      exact ⟨i, p, h, rfl, hc⟩

/-- Record with a valid embedded location and the key `"u"`. -/
def recGeoA : Place :=
  { url := some "u",
    location := some { lat := some (JsNum.num 1), lng := some (JsNum.num 2) } }

/-- Record sharing the key `"u"` but carrying no location. -/
def recGeoB : Place := { url := some "u" }

/-- Counterexample to C9 as stated: over the two-record dataset sharing
the key `"u"`, the geo cache has an entry under the second record's key
although that record has no location at all, so the claimed per-record
equivalence fails. -/
theorem geoCache_entry_counterexample :
    ([recGeoA, recGeoB] : List Place)[1]? = some recGeoB
    ∧ (buildGeoCache [recGeoA, recGeoB]) (placeKey recGeoB 1) ≠ none
    ∧ recGeoB.location = none
    ∧ extractCoords recGeoB = none
    ∧ ¬((buildGeoCache [recGeoA, recGeoB]) (placeKey recGeoB 1) ≠ none
        ↔ extractCoords recGeoB ≠ none) := by
  decide

/-- Witness for the amended C9 at the concrete shared-key dataset. -/
theorem geoCache_entry_iff_witness :
    ([recGeoA, recGeoB] : List Place)[1]? = some recGeoB
    ∧ (((buildGeoCache [recGeoA, recGeoB]) (placeKey recGeoB 1) ≠ none
        ↔ ∃ j q, ([recGeoA, recGeoB] : List Place)[j]? = some q
            ∧ placeKey q j = placeKey recGeoB 1 ∧ extractCoords q ≠ none)
      ∧ (extractCoords recGeoB ≠ none →
          (buildGeoCache [recGeoA, recGeoB]) (placeKey recGeoB 1) ≠ none)
      ∧ ((∀ j q, ([recGeoA, recGeoB] : List Place)[j]? = some q →
            placeKey q j = placeKey recGeoB 1 → q = recGeoB) →
          ((buildGeoCache [recGeoA, recGeoB]) (placeKey recGeoB 1) ≠ none
            ↔ extractCoords recGeoB ≠ none))) :=
  ⟨by decide, geoCache_entry_iff [recGeoA, recGeoB] 1 recGeoB (by decide)⟩

/-- One entry of the source's `nearbyPlaces` list:
`{ place, idx, distanceKm, key, isVisited, coords }`. -/
structure NearbyEntry where
  place : Place
  idx : ℕ
  distanceKm : ℚ
  key : String
  isVisited : Bool
  coords : Coordinates
deriving DecidableEq

/-- The source's per-record mapping inside `nearbyPlaces`: null when the
geo cache has no coordinates for the record's key or when the distance
exceeds 2 km, otherwise the full entry. -/
def nearbyEntryOf (dist : Coordinates → Coordinates → ℚ) (u : Coordinates)
    (s : AppState) (ip : ℕ × Place) : Option NearbyEntry :=
  match s.geoCache (placeKey ip.2 ip.1) with
  | none => none
  | some coords =>
      if 2 < dist u coords then none
      else some { place := ip.2, idx := ip.1, distanceKm := dist u coords,
                  key := placeKey ip.2 ip.1,
                  isVisited := decide (placeKey ip.2 ip.1 ∈ s.visited),
                  coords := coords }

/-- The entries surviving the source's `.map(...).filter(v => v != null)`. -/
def nearbyCandidates (dist : Coordinates → Coordinates → ℚ) (u : Coordinates)
    (s : AppState) : List NearbyEntry :=
  s.data.enum.filterMap (nearbyEntryOf dist u s)

/-- Source `nearbyPlaces`: empty without a user location, otherwise the
candidates sorted ascending by `distanceKm`
(`.sort((a, b) => a.distanceKm - b.distanceKm)`, a stable comparison
sort modelled by `mergeSort`) and truncated by `.slice(0, 30)`. -/
def nearbyPlaces (dist : Coordinates → Coordinates → ℚ) (s : AppState) :
    List NearbyEntry :=
  match s.userLocation with
  | none => []
  | some u =>
      ((nearbyCandidates dist u s).mergeSort
        (fun a b => decide (a.distanceKm ≤ b.distanceKm))).take 30

lemma nearbyEntryOf_some_spec {dist : Coordinates → Coordinates → ℚ}
    {u : Coordinates} {s : AppState} {ip : ℕ × Place} {e : NearbyEntry}
    (h : nearbyEntryOf dist u s ip = some e) :
    e.place = ip.2 ∧ e.idx = ip.1 ∧ e.key = placeKey ip.2 ip.1
    ∧ s.geoCache e.key = some e.coords ∧ e.distanceKm = dist u e.coords
    ∧ e.distanceKm ≤ 2 ∧ e.isVisited = decide (e.key ∈ s.visited) := by
  unfold nearbyEntryOf at h
  match hg : s.geoCache (placeKey ip.2 ip.1) with
  | none =>
    rw [hg] at h
    exact absurd h (by simp)
  | some coords =>
    rw [hg] at h
    have h' : (if 2 < dist u coords then none
        else some { place := ip.2, idx := ip.1, distanceKm := dist u coords,
                    key := placeKey ip.2 ip.1,
                    isVisited := decide (placeKey ip.2 ip.1 ∈ s.visited),
                    coords := coords } : Option NearbyEntry) = some e := h
    by_cases hd : 2 < dist u coords
    · rw [if_pos hd] at h'
      exact absurd h' (by simp)
    · rw [if_neg hd] at h'
      injection h' with h'
      subst h'
      exact ⟨rfl, rfl, rfl, hg, rfl, not_lt.mp hd, rfl⟩

lemma nearbyEntryOf_complete {dist : Coordinates → Coordinates → ℚ}
    {u : Coordinates} {s : AppState} {i : ℕ} {p : Place} {c : Coordinates}
    (hg : s.geoCache (placeKey p i) = some c) (hd : dist u c ≤ 2) :
    nearbyEntryOf dist u s (i, p) =
      some { place := p, idx := i, distanceKm := dist u c, key := placeKey p i,
             isVisited := decide (placeKey p i ∈ s.visited), coords := c } := by
  unfold nearbyEntryOf
  show (match s.geoCache (placeKey p i) with
    | none => none
    | some coords =>
        if 2 < dist u coords then none
        else some { place := p, idx := i, distanceKm := dist u coords,
                    key := placeKey p i,
                    isVisited := decide (placeKey p i ∈ s.visited),
                    coords := coords } : Option NearbyEntry) = _
  rw [hg]
  show (if 2 < dist u c then none
    else some { place := p, idx := i, distanceKm := dist u c, key := placeKey p i,
                isVisited := decide (placeKey p i ∈ s.visited),
                coords := c } : Option NearbyEntry) = _
  rw [if_neg (not_lt.mpr hd)]

/-- C6: with a user coordinate set, the nearby list has at most 30
entries, is sorted ascending by distance, contains only records that have
cached coordinates for their key and lie within 2 km of the user
coordinate (so records without a resolvable coordinate never appear), and
— whenever the qualifying candidates number at most 30, so that the
truncation drops nothing — contains an entry for every record with cached
coordinates within 2 km. -/
theorem nearby_spec (dist : Coordinates → Coordinates → ℚ) (s : AppState)
    (u : Coordinates) (h : s.userLocation = some u) :
    (nearbyPlaces dist s).length ≤ 30
    ∧ List.Pairwise (fun a b => a.distanceKm ≤ b.distanceKm) (nearbyPlaces dist s)
    ∧ (∀ e ∈ nearbyPlaces dist s,
        s.data[e.idx]? = some e.place ∧ e.key = placeKey e.place e.idx
        ∧ s.geoCache e.key = some e.coords ∧ e.distanceKm = dist u e.coords
        ∧ e.distanceKm ≤ 2 ∧ e.isVisited = decide (e.key ∈ s.visited))
    ∧ ((nearbyCandidates dist u s).length ≤ 30 →
        ∀ i p c, s.data[i]? = some p → s.geoCache (placeKey p i) = some c →
          dist u c ≤ 2 →
          ∃ e ∈ nearbyPlaces dist s, e.idx = i ∧ e.place = p ∧ e.coords = c) := by
  have hnb : nearbyPlaces dist s =
      ((nearbyCandidates dist u s).mergeSort
        (fun a b => decide (a.distanceKm ≤ b.distanceKm))).take 30 := by
    unfold nearbyPlaces
    rw [h]
  refine ⟨?_, ?_, ?_, ?_⟩
  · rw [hnb]
    exact List.length_take_le _ _
  · rw [hnb]
    have hsorted := @List.sorted_mergeSort NearbyEntry
      (fun a b => decide (a.distanceKm ≤ b.distanceKm))
      (fun a b c hab hbc => decide_eq_true
        (le_trans (of_decide_eq_true hab) (of_decide_eq_true hbc)))
      (fun a b => by
        rcases le_total a.distanceKm b.distanceKm with hle | hle
        · show (decide (a.distanceKm ≤ b.distanceKm)
            || decide (b.distanceKm ≤ a.distanceKm)) = true
          rw [decide_eq_true hle]
          rfl
        · show (decide (a.distanceKm ≤ b.distanceKm)
            || decide (b.distanceKm ≤ a.distanceKm)) = true
          rw [decide_eq_true hle]
          exact Bool.or_true _)
      (nearbyCandidates dist u s)
    exact ((hsorted.imp fun hab => of_decide_eq_true hab).sublist
      (List.take_sublist _ _))
  · intro e he
    rw [hnb] at he
    have hms : e ∈ (nearbyCandidates dist u s).mergeSort
        (fun a b => decide (a.distanceKm ≤ b.distanceKm)) :=
      (List.take_sublist _ _).mem he
    have hc : e ∈ nearbyCandidates dist u s :=
      (List.mergeSort_perm _ _).mem_iff.mp hms
    obtain ⟨⟨i, p⟩, hip, hf⟩ := List.mem_filterMap.mp hc
    obtain ⟨hpl, hidx, hkey, hgc, hdist, hle, hvis⟩ := nearbyEntryOf_some_spec hf
    have hget : s.data[i]? = some p := List.mk_mem_enum_iff_getElem?.mp hip
    refine ⟨?_, ?_, hgc, hdist, hle, hvis⟩
    · rw [hidx, hpl]
      exact hget
    · rw [hkey, hpl, hidx]
  · intro hlen i p c hget hg hd
    have hf := @nearbyEntryOf_complete dist u s i p c hg hd
    have hc : NearbyEntry.mk p i (dist u c) (placeKey p i)
        (decide (placeKey p i ∈ s.visited)) c ∈ nearbyCandidates dist u s :=
      List.mem_filterMap.mpr ⟨(i, p), List.mk_mem_enum_iff_getElem?.mpr hget, hf⟩
    have hms := (List.mergeSort_perm (nearbyCandidates dist u s)
      (fun a b => decide (a.distanceKm ≤ b.distanceKm))).mem_iff.mpr hc
    have htake : ((nearbyCandidates dist u s).mergeSort
        (fun a b => decide (a.distanceKm ≤ b.distanceKm))).take 30
        = (nearbyCandidates dist u s).mergeSort
            (fun a b => decide (a.distanceKm ≤ b.distanceKm)) := by
      apply List.take_of_length_le
      rw [List.length_mergeSort]
      exact hlen
    rw [hnb, htake]
    exact ⟨_, hms, rfl, rfl, rfl⟩

/-- Demo state with a user location and the shared-key geo records. -/
def demoGeo : AppState :=
  { demoState with
      data := [recGeoA, recGeoB],
      userLocation := some { lat := 0, lng := 0 },
      geoCache := buildGeoCache [recGeoA, recGeoB] }

/-- Witness for C6 at the concrete located state with the constant unit
distance function. -/
theorem nearby_spec_witness :
    demoGeo.userLocation = some { lat := 0, lng := 0 }
    ∧ ((nearbyPlaces (fun _ _ => 1) demoGeo).length ≤ 30
      ∧ List.Pairwise (fun a b => a.distanceKm ≤ b.distanceKm)
          (nearbyPlaces (fun _ _ => 1) demoGeo)
      ∧ (∀ e ∈ nearbyPlaces (fun _ _ => 1) demoGeo,
          demoGeo.data[e.idx]? = some e.place ∧ e.key = placeKey e.place e.idx
          ∧ demoGeo.geoCache e.key = some e.coords ∧ e.distanceKm = 1
          ∧ e.distanceKm ≤ 2 ∧ e.isVisited = decide (e.key ∈ demoGeo.visited))
      ∧ ((nearbyCandidates (fun _ _ => 1) { lat := 0, lng := 0 } demoGeo).length ≤ 30 →
          ∀ i p c, demoGeo.data[i]? = some p →
            demoGeo.geoCache (placeKey p i) = some c → (1 : ℚ) ≤ 2 →
            ∃ e ∈ nearbyPlaces (fun _ _ => 1) demoGeo,
              e.idx = i ∧ e.place = p ∧ e.coords = c)) :=
  ⟨rfl, nearby_spec (fun _ _ => 1) demoGeo { lat := 0, lng := 0 } rfl⟩
